import Mathlib

/-!
# Verification of the Prism Terraform provider's reconciliation logic

A shallow embedding, in Lean 4, of the algorithmic core of the
`terraform-provider-prism` repository: the permission-set-assignment
reconciliation (create / read / delete over comma-joined composite ids),
the cascading pre-delete of permission sets, the HTTP envelope handling of
the API client, the AWS-account state non-clobber logic, and the
dependency-wait polling helper.

Go strings are modelled as Lean `String`s (lists of characters);
`strings.Split`, `strings.Join` and `strings.Contains` are re-implemented
character by character so that their behaviour on every input is fixed by
the definitions below.  HTTP calls are modelled as explicit function
parameters (`get`, `del`, ...) returning `Except`/`Option` values, and the
two time-bounded polling loops are modelled with an explicit fuel
argument standing for the number of remaining poll iterations within the
fixed time budget.
-/

namespace Prism

/-! ## Character-level string primitives (Go `strings` package) -/

/-- Embedding of `strings.Split(s, sep)` for a one-character separator, on character
lists.  Splitting the empty list yields `[[]]`, as in Go. -/
def splitGo (sep : Char) : List Char → List (List Char)
  | [] => [[]]
  | c :: rest =>
    let r := splitGo sep rest
    if c = sep then [] :: r else (c :: r.headI) :: r.tail

/-- Embedding of `strings.Join(xs, sep)` on character lists. -/
def joinChars (sep : List Char) : List (List Char) → List Char
  | [] => []
  | [x] => x
  | x :: y :: rest => x ++ sep ++ joinChars sep (y :: rest)

/-- Whether `needle` occurs at the start of `hay`. -/
def startsWithL : List Char → List Char → Bool
  | _, [] => true
  | [], _ :: _ => false
  | a :: as, b :: bs => a == b && startsWithL as bs

/-- Embedding of `strings.Contains(hay, needle)` on character lists: some suffix of
`hay` starts with `needle`. -/
def containsSubL (needle : List Char) : List Char → Bool
  | [] => startsWithL [] needle
  | c :: rest => startsWithL (c :: rest) needle || containsSubL needle rest

/-- Embedding of `strings.Split(s, ",")` on `String`s. -/
def goSplit (s : String) : List String :=
  (splitGo ',' s.data).map fun l => ⟨l⟩

/-- Embedding of `strings.Join(xs, sep)` on `String`s. -/
def goJoin (sep : String) (xs : List String) : String :=
  ⟨joinChars sep.data (xs.map String.data)⟩

/-- Embedding of `strings.Contains(s, sub)` on `String`s. -/
def strContains (s sub : String) : Bool :=
  containsSubL sub.data s.data

/-- ASCII lower-casing of a character (`unicode` is irrelevant to the
error strings involved). -/
def lowerChar (c : Char) : Char :=
  if 'A' ≤ c ∧ c ≤ 'Z' then Char.ofNat (c.toNat + 32) else c

/-- Embedding of `strings.ToLower`, restricted to ASCII. -/
def lowerStr (s : String) : String :=
  ⟨s.data.map lowerChar⟩

/-- Predicate: `needle` occurs as a contiguous substring of `hay` (specification-side
characterisation, used to state correctness of `containsSubL`). -/
def occursIn (needle hay : List Char) : Prop :=
  ∃ p q, hay = p ++ needle ++ q

/-! ### Lemmas about the string primitives -/

theorem splitGo_ne_nil (sep : Char) : ∀ l : List Char, splitGo sep l ≠ []
  | [] => by simp [splitGo]
  | c :: rest => by
    by_cases h : c = sep <;> simp [splitGo, h]

theorem splitGo_no_sep (sep : Char) :
    ∀ l : List Char, sep ∉ l → splitGo sep l = [l]
  | [], _ => rfl
  | c :: rest, h => by
    have hc : ¬ c = sep := fun hcs => h (hcs ▸ List.mem_cons_self c rest)
    have hrest : sep ∉ rest := fun hm => h (List.mem_cons_of_mem c hm)
    simp [splitGo, hc, splitGo_no_sep sep rest hrest]

theorem splitGo_append_sep (sep : Char) :
    ∀ (l r : List Char), sep ∉ l →
      splitGo sep (l ++ sep :: r) = l :: splitGo sep r
  | [], r, _ => by simp [splitGo]
  | c :: l, r, h => by
    have hc : ¬ c = sep := fun hcs => h (hcs ▸ List.mem_cons_self c l)
    have hl : sep ∉ l := fun hm => h (List.mem_cons_of_mem c hm)
    simp [splitGo, hc, splitGo_append_sep sep l r hl]

theorem splitGo_joinChars (sep : Char) :
    ∀ xs : List (List Char), xs ≠ [] → (∀ l ∈ xs, sep ∉ l) →
      splitGo sep (joinChars [sep] xs) = xs
  | [], h, _ => absurd rfl h
  | [x], _, hm => by
    rw [joinChars]
    exact splitGo_no_sep sep x (hm x (List.mem_singleton.mpr rfl))
  | x :: y :: rest, _, hm => by
    rw [joinChars]
    have hx : sep ∉ x := hm x (List.mem_cons_self x (y :: rest))
    have : x ++ [sep] ++ joinChars [sep] (y :: rest)
        = x ++ sep :: joinChars [sep] (y :: rest) := by simp
    rw [this, splitGo_append_sep sep x _ hx,
      splitGo_joinChars sep (y :: rest) (by simp)
        (fun l hl => hm l (List.mem_cons_of_mem x hl))]

theorem string_mk_data : ∀ s : String, String.mk s.data = s
  | ⟨_⟩ => rfl

theorem goSplit_goJoin (ids : List String) (hne : ids ≠ [])
    (hnc : ∀ s ∈ ids, ',' ∉ s.data) :
    goSplit (goJoin "," ids) = ids := by
  unfold goSplit goJoin
  have hsep : (",").data = [','] := rfl
  rw [hsep]
  rw [show (String.mk (joinChars [','] (ids.map String.data))).data
      = joinChars [','] (ids.map String.data) from rfl]
  rw [splitGo_joinChars ',' (ids.map String.data)
    (by simpa using hne)
    (by intro l hl
        rcases List.mem_map.mp hl with ⟨s, hs, rfl⟩
        exact hnc s hs)]
  rw [List.map_map]
  have : (fun l => (⟨l⟩ : String)) ∘ String.data = id := by
    funext s; exact string_mk_data s
  rw [this, List.map_id]

theorem goSplit_ne_nil (s : String) : goSplit s ≠ [] := by
  unfold goSplit
  intro h
  exact splitGo_ne_nil ',' s.data (List.map_eq_nil_iff.mp h)

theorem goSplit_length_pos (s : String) : 1 ≤ (goSplit s).length :=
  Nat.succ_le_of_lt (List.length_pos.mpr (goSplit_ne_nil s))

theorem startsWithL_iff :
    ∀ hay needle : List Char,
      startsWithL hay needle = true ↔ ∃ r, hay = needle ++ r
  | hay, [] => by simp [startsWithL]
  | [], b :: bs => by simp [startsWithL]
  | a :: as, b :: bs => by
    simp only [startsWithL, Bool.and_eq_true, beq_iff_eq]
    rw [startsWithL_iff as bs]
    constructor
    · rintro ⟨rfl, r, rfl⟩
      exact ⟨r, rfl⟩
    · rintro ⟨r, hr⟩
      rw [List.cons_append] at hr
      injection hr with h1 h2
      exact ⟨h1, r, h2⟩

theorem containsSubL_iff :
    ∀ (hay needle : List Char),
      containsSubL needle hay = true ↔ occursIn needle hay
  | [], needle => by
    simp only [containsSubL]
    rw [startsWithL_iff]
    constructor
    · rintro ⟨r, hr⟩
      exact ⟨[], r, by simpa using hr⟩
    · rintro ⟨p, q, h⟩
      have hp : p = [] := by
        cases p with
        | nil => rfl
        | cons x xs => simp at h
      subst hp
      have hn : needle = [] := by
        cases needle with
        | nil => rfl
        | cons x xs => simp at h
      subst hn
      exact ⟨[], rfl⟩
  | c :: rest, needle => by
    simp only [containsSubL, Bool.or_eq_true]
    rw [startsWithL_iff, containsSubL_iff rest needle]
    constructor
    · rintro (⟨r, hr⟩ | ⟨p, q, hpq⟩)
      · exact ⟨[], r, by simpa using hr⟩
      · exact ⟨c :: p, q, by simp [hpq]⟩
    · rintro ⟨p, q, hpq⟩
      cases p with
      | nil =>
        exact Or.inl ⟨q, by simpa using hpq⟩
      | cons x xs =>
        right
        rw [List.cons_append, List.cons_append] at hpq
        injection hpq with _ h2
        exact ⟨xs, q, h2⟩

theorem strContains_iff (s sub : String) :
    strContains s sub = true ↔ occursIn sub.data s.data :=
  containsSubL_iff s.data sub.data

/-! ## Data model: permission set assignments

Mirrors the `PermissionSetAssignment` struct of the API client
(`client.go`); the request-only `accountIds` field is carried separately
by the create path and is not needed for the row-level model. -/

structure Assignment where
  id : String
  permissionSetID : String
  principalType : String
  principalID : String
  accountID : String
  username : String
  groupName : String
deriving DecidableEq, Repr

/-- Embedding of the `404`/`not found` substring test that `Read` and `Delete` of the
assignment resource apply to per-row API errors
(`strings.Contains(err.Error(), "404") || strings.Contains(err.Error(), "not found")`). -/
def rowNotFound (e : String) : Bool :=
  strContains e "404" || strContains e "not found"

/-! ## PermissionSetAssignmentResource.Create (post-create reconciliation)

After the create call succeeds, the handler re-lists all assignments and,
for each requested account id, takes the first listed row matching the
permission-set id, the principal type, the account id and the principal
identity; accounts with no matching row produce a warning.  Zero
recovered rows fail the operation; otherwise the comma-join of the
recovered row ids is persisted as the resource id. -/

/-- The row filter used in `Create`'s recovery loop. -/
def matchesCreate (permSetID principalType principalID acctID : String)
    (a : Assignment) : Bool :=
  a.permissionSetID == permSetID && a.principalType == principalType &&
    a.accountID == acctID &&
    (if principalType == "USER" then a.username == principalID
     else if principalType == "GROUP" then a.groupName == principalID
     else false)

/-- One pass over the requested account ids: returns the recovered row
ids (in request order) and the accounts for which no row was found (each
of which gets an `Assignment Not Found` warning). -/
def recoverCreated (rows : List Assignment)
    (permSetID principalType principalID : String) :
    List String → List String × List String
  | [] => ([], [])
  | acct :: rest =>
    let r := recoverCreated rows permSetID principalType principalID rest
    match rows.find? (matchesCreate permSetID principalType principalID acct) with
    | some row => (row.id :: r.1, r.2)
    | none => (r.1, acct :: r.2)

inductive CreateResult where
  | noAssignmentsFound
  | created (compositeID : String) (missingAccounts : List String)
deriving DecidableEq, Repr

/-- The reconciliation tail of `PermissionSetAssignmentResource.Create`:
from the re-listed rows and the requested accounts, either fail
(`No Assignments Found`, nothing persisted) or persist the comma-joined
composite id, warning once per missing account. -/
def createAssignment (rows : List Assignment)
    (permSetID principalType principalID : String)
    (accountIDs : List String) : CreateResult :=
  let r := recoverCreated rows permSetID principalType principalID accountIDs
  if r.1.length = 0 then .noAssignmentsFound
  else .created (goJoin "," r.1) r.2

/-! ## PermissionSetAssignmentResource.Read -/

inductive ReadResult where
  | invalidState
  | removedFromState
  | ok (drift : Bool) (apiWarnIDs : List String)
      (permissionSetID principalType principalID : String)
      (accountIDs : List String)
deriving DecidableEq, Repr

/-- The fetch loop of `Read`: `get` models
`client.GetPermissionSetAssignment`.  Rows whose fetch fails with a
`404`/`not found` error are dropped silently; other fetch errors produce
an `API Error` warning (the id is recorded here) and the row is likewise
skipped. -/
def readScan (get : String → Except String Assignment) :
    List String → List Assignment × List String
  | [] => ([], [])
  | rid :: rest =>
    let r := readScan get rest
    match get rid with
    | .ok a => (a :: r.1, r.2)
    | .error e => if rowNotFound e then r else (r.1, rid :: r.2)

/-- Embedding of `PermissionSetAssignmentResource.Read`: split the composite id,
fetch each row, remove the resource from state when no row survives,
warn about partial drift, and rehydrate the fields from the surviving
rows. -/
def readAssignment (get : String → Except String Assignment)
    (stateID : String) : ReadResult :=
  let assignmentIDs := goSplit stateID
  if assignmentIDs.length = 0 then .invalidState
  else
    let scan := readScan get assignmentIDs
    match scan.1 with
    | [] => .removedFromState
    | first :: _ =>
      .ok (decide (scan.1.length < assignmentIDs.length)) scan.2
        first.permissionSetID first.principalType
        (if first.principalType == "USER" then first.username
         else first.groupName)
        (scan.1.map fun a => a.accountID)

/-! ## PermissionSetAssignmentResource.Delete -/

inductive DeleteResult where
  | nothingToDelete
  | ok
  | errorAgg (msg : String)
deriving DecidableEq, Repr

/-- The delete loop of `Delete`: `del` models
`client.DeletePermissionSetAssignment` (`none` = success).  Returns the
ids actually attempted and the collected non-`404` error strings. -/
def deleteScan (del : String → Option String) :
    List String → List String × List String
  | [] => ([], [])
  | rid :: rest =>
    let r := deleteScan del rest
    match del rid with
    | none => (rid :: r.1, r.2)
    | some e =>
      if rowNotFound e then (rid :: r.1, r.2)
      else (rid :: r.1, ("assignment " ++ rid ++ ": " ++ e) :: r.2)

/-- Embedding of `PermissionSetAssignmentResource.Delete`: split the composite id,
delete every row, tolerate already-gone rows, and aggregate any other
failures into one error after all rows have been attempted. -/
def deleteAssignment (del : String → Option String)
    (stateID : String) : DeleteResult :=
  let assignmentIDs := goSplit stateID
  if assignmentIDs.length = 0 then .nothingToDelete
  else
    let errs := (deleteScan del assignmentIDs).2
    if errs.length = 0 then .ok
    else .errorAgg ("Failed to delete some permission set assignments: "
      ++ goJoin "; " errs)

/-! ### Characterisations of the reconciliation loops -/

theorem recoverCreated_fst (rows : List Assignment)
    (ps pt pid : String) : ∀ accts : List String,
    (recoverCreated rows ps pt pid accts).1
      = accts.filterMap fun acct =>
          (rows.find? (matchesCreate ps pt pid acct)).map Assignment.id
  | [] => rfl
  | acct :: rest => by
    simp only [recoverCreated, List.filterMap_cons]
    cases h : rows.find? (matchesCreate ps pt pid acct) with
    | none => simpa [h] using recoverCreated_fst rows ps pt pid rest
    | some row => simpa [h] using recoverCreated_fst rows ps pt pid rest

theorem recoverCreated_snd (rows : List Assignment)
    (ps pt pid : String) : ∀ accts : List String,
    (recoverCreated rows ps pt pid accts).2
      = accts.filter fun acct =>
          (rows.find? (matchesCreate ps pt pid acct)).isNone
  | [] => rfl
  | acct :: rest => by
    simp only [recoverCreated, List.filter_cons]
    cases h : rows.find? (matchesCreate ps pt pid acct) with
    | none => simpa [h] using recoverCreated_snd rows ps pt pid rest
    | some row => simpa [h] using recoverCreated_snd rows ps pt pid rest

theorem deleteScan_fst (del : String → Option String) :
    ∀ ids : List String, (deleteScan del ids).1 = ids
  | [] => rfl
  | rid :: rest => by
    simp only [deleteScan]
    cases h : del rid with
    | none => simpa using deleteScan_fst del rest
    | some e =>
      by_cases hnf : rowNotFound e <;>
        simpa [hnf] using deleteScan_fst del rest

theorem deleteScan_snd (del : String → Option String) :
    ∀ ids : List String,
    (deleteScan del ids).2 = ids.filterMap fun rid =>
      match del rid with
      | none => none
      | some e =>
        if rowNotFound e then none
        else some ("assignment " ++ rid ++ ": " ++ e)
  | [] => rfl
  | rid :: rest => by
    simp only [deleteScan, List.filterMap_cons]
    cases h : del rid with
    | none => simpa [h] using deleteScan_snd del rest
    | some e =>
      by_cases hnf : rowNotFound e <;>
        simpa [h, hnf] using deleteScan_snd del rest

/-! ## PermissionSetResource.Delete (cascading pre-delete)

The handler lists all assignments, deletes every assignment whose
`permissionSetId` matches the permission set being destroyed (collecting
failures as warnings), then — when at least one delete succeeded — polls
(30 s budget, 2 s interval, modelled as `fuel` remaining iterations)
until none of the deleted ids is still fetchable, and finally deletes the
permission set itself in every branch.  API calls are recorded as an
explicit trace. -/

inductive ApiCall where
  | listAssignments
  | deleteAssignmentCall (id : String)
  | getAssignmentCall (id : String)
  | deletePermissionSetCall (id : String)
deriving DecidableEq, Repr

/-- The pre-delete loop: for every listed assignment referencing the
permission set, issue a delete; collect error strings and the ids whose
delete succeeded.  Returns `(trace, deleteErrors, deletedIDs)`. -/
def cascadeDeleteAssignments (del : String → Option String)
    (psID : String) :
    List Assignment → List ApiCall × List String × List String
  | [] => ([], [], [])
  | a :: rest =>
    let r := cascadeDeleteAssignments del psID rest
    if a.permissionSetID == psID then
      match del a.id with
      | none => (.deleteAssignmentCall a.id :: r.1, r.2.1, a.id :: r.2.2)
      | some e =>
        (.deleteAssignmentCall a.id :: r.1,
          ("assignment " ++ a.id ++ ": " ++ e) :: r.2.1, r.2.2)
    else r

/-- One polling round: probe the deleted ids in order; the first id whose
fetch succeeds stops the scan with `stillExists = true`; `404`-ish fetch
errors mean the row is gone; other fetch errors yield a
`Error Checking Assignment Status` warning.  Returns
`(trace, stillExists, warnings)`. -/
def pollCheck (get : String → Except String Assignment) :
    List String → List ApiCall × Bool × List String
  | [] => ([], false, [])
  | rid :: rest =>
    match get rid with
    | .ok _ => ([.getAssignmentCall rid], true, [])
    | .error e =>
      let r := pollCheck get rest
      if rowNotFound e then (.getAssignmentCall rid :: r.1, r.2)
      else (.getAssignmentCall rid :: r.1, r.2.1,
        ("could not verify assignment " ++ rid) :: r.2.2)

/-- The 30-second verification loop: `fuel` is the number of remaining
poll iterations inside the time budget, `getAt round` is the backend at
the given round.  Running out of fuel models the
`time.Since(startTime) >= maxWaitTime` exit and yields the timeout
warning flag. -/
def pollLoop (getAt : Nat → String → Except String Assignment)
    (ids : List String) : Nat → Nat → List ApiCall × Bool × List String
  | 0, _ => ([], true, [])
  | fuel + 1, round =>
    let c := pollCheck (getAt round) ids
    if c.2.1 then
      let r := pollLoop getAt ids fuel (round + 1)
      (c.1 ++ r.1, r.2.1, c.2.2 ++ r.2.2)
    else (c.1, false, c.2.2)

structure CascadeOutcome where
  events : List ApiCall
  warnings : List String
  timeoutWarning : Bool
  fatalError : Option String
deriving DecidableEq, Repr

/-- Embedding of `PermissionSetResource.Delete`: list, cascade-delete the referencing
assignments, verify their disappearance, then delete the permission set
itself; a failing list call and failing individual deletes only warn, and
the parent delete is attempted in every branch. -/
def permissionSetCascadeDelete (listResult : Except String (List Assignment))
    (del : String → Option String)
    (getAt : Nat → String → Except String Assignment)
    (delParent : Option String) (psID : String) (fuel : Nat) :
    CascadeOutcome :=
  match listResult with
  | .error _ =>
    { events := [.listAssignments, .deletePermissionSetCall psID]
      warnings := ["Unable to List Assignments"]
      timeoutWarning := false
      fatalError := delParent }
  | .ok assignments =>
    let d := cascadeDeleteAssignments del psID assignments
    let warns1 : List String :=
      if (d.2.1).length > 0 then ["Failed to Delete Some Assignments"] else []
    if (d.2.2).length > 0 then
      let p := pollLoop getAt d.2.2 fuel 0
      { events := .listAssignments :: d.1 ++ p.1
          ++ [.deletePermissionSetCall psID]
        warnings := warns1 ++ ["Automatic Assignment Cleanup"] ++ p.2.2
        timeoutWarning := p.2.1
        fatalError := delParent }
    else
      { events := .listAssignments :: d.1 ++ [.deletePermissionSetCall psID]
        warnings := warns1
        timeoutWarning := false
        fatalError := delParent }

/-! ## API client: `doRequest` status handling and envelope unwrapping

The JSON layer is abstracted by a `decode` parameter standing for
`json.Unmarshal` into the `APIResponse` envelope. -/

structure APIResponse where
  success : Bool
  message : String
  error : String
  data : String
deriving DecidableEq, Repr

/-- Embedding of `unwrapAPIResponse`: decode the envelope and extract `data`;
`success = false` is an error carrying the envelope's `error` string. -/
def unwrapAPIResponse (decode : String → Except String APIResponse)
    (body : String) : Except String String :=
  match decode body with
  | .error e => .error ("failed to unmarshal API response: " ++ e)
  | .ok r =>
    if r.success then .ok r.data
    else .error ("API request failed: " ++ r.error)

/-- The response-handling tail of `Client.doRequest`, applied to the HTTP
status code and the raw response body: `resp.StatusCode >= 400` is a hard
error carrying the status and the raw body; otherwise the body is
unwrapped from the envelope. -/
def doRequestHandle (decode : String → Except String APIResponse)
    (statusCode : Nat) (respBody : String) : Except String String :=
  if 400 ≤ statusCode then
    .error ("API error (" ++ Nat.repr statusCode ++ "): " ++ respBody)
  else unwrapAPIResponse decode respBody

/-! ## AWSAccountResource: response-to-state application

`types.String` of the plugin framework is modelled by `TFString`
(null / unknown / value); `ValueString()` of null or unknown is `""`. -/

inductive TFString where
  | null
  | unknown
  | val (s : String)
deriving DecidableEq, Repr

def TFString.valueString : TFString → String
  | .val s => s
  | _ => ""

def TFString.isNull : TFString → Bool
  | .null => true
  | _ => false

/-- Mirror of the `AWSAccount` struct of the API client (response shape). -/
structure AWSAccount where
  id : String
  customerID : String
  accountID : String
  accountName : String
  region : String
  roleArn : String
  ownerEmails : List String
deriving DecidableEq, Repr

/-- The Terraform state/plan model of the `aws_account` resource. -/
structure AWSAccountState where
  id : TFString
  accountID : TFString
  accountName : TFString
  region : TFString
  roleArn : TFString
  ownerEmails : Option (List String)
deriving DecidableEq, Repr

/-- The default cross-account role ARN computed when neither the API
response nor the configuration provides one. -/
def defaultRoleArn (accountID : String) : String :=
  "arn:aws:iam::" ++ accountID ++ ":role/CloudKeeper-SSO-Role"

/-- The shared role-arn rule: use the API value if non-empty, otherwise
compute the default when the current value is null or empty, otherwise
keep the current value. -/
def applyRoleArn (respRoleArn : String) (cur : AWSAccountState) : TFString :=
  if respRoleArn ≠ "" then .val respRoleArn
  else if cur.roleArn.isNull || cur.roleArn.valueString == "" then
    .val (defaultRoleArn cur.accountID.valueString)
  else cur.roleArn

/-- The owner-emails rule shared by all three handlers: a non-empty
response list replaces the value, an empty one resets the attribute to a
null list. -/
def applyOwnerEmails (resp : List String) : Option (List String) :=
  if resp.length > 0 then some resp else none

/-- The state update performed by `AWSAccountResource.Create` after the
create call returns `created`. -/
def applyCreateAWS (created : AWSAccount) (data : AWSAccountState) :
    AWSAccountState :=
  let d1 := { data with id := .val created.id }
  let d2 := if created.accountID ≠ "" then
      { d1 with accountID := .val created.accountID } else d1
  let d3 := if created.accountName ≠ "" then
      { d2 with accountName := .val created.accountName } else d2
  let d4 := if created.region ≠ "" then
      { d3 with region := .val created.region } else d3
  let d5 := { d4 with roleArn := applyRoleArn created.roleArn d4 }
  { d5 with ownerEmails := applyOwnerEmails created.ownerEmails }

/-- The state update performed by `AWSAccountResource.Read` after the get
call returns `account`. -/
def applyReadAWS (account : AWSAccount) (data : AWSAccountState) :
    AWSAccountState :=
  let d1 := if account.accountName ≠ "" then
      { data with accountName := .val account.accountName } else data
  let d2 := if account.region ≠ "" then
      { d1 with region := .val account.region } else d1
  let d3 := { d2 with roleArn := applyRoleArn account.roleArn d2 }
  { d3 with ownerEmails := applyOwnerEmails account.ownerEmails }

/-- The state update performed by `AWSAccountResource.Update` after the
update call returns `updated` (same shape as `Read`'s). -/
def applyUpdateAWS (updated : AWSAccount) (data : AWSAccountState) :
    AWSAccountState :=
  let d1 := if updated.accountName ≠ "" then
      { data with accountName := .val updated.accountName } else data
  let d2 := if updated.region ≠ "" then
      { d1 with region := .val updated.region } else d1
  let d3 := { d2 with roleArn := applyRoleArn updated.roleArn d2 }
  { d3 with ownerEmails := applyOwnerEmails updated.ownerEmails }

/-! ## Dependency-wait helper

The implementation of `isDependencyNotFoundError` and `waitForDependency`
is not part of the repository snapshot (only its unit tests and its call
sites are), so both are modelled from the specification. -/

/-- Modelled from the spec: `isDependencyNotFoundError` — missing from
the snapshot, only exercised by `client_dependency_test.go`.  "For all
errors containing \x7b404\x7d or any case-insensitive \x7bnot found\x7d,
the not-found predicate returns true; for all other error strings, it
returns false; nil input returns false."  Errors are `Option String`
(`none` = Go `nil`). -/
def isDependencyNotFoundError : Option String → Bool
  | none => false
  | some msg =>
    strContains msg "404" || strContains (lowerStr msg) "not found"

/-- Modelled from the spec: `waitForDependency` — missing from the
snapshot.  "Given a resource kind name, an identifier, and a probe
function, repeatedly invoke the probe until it returns success or a
non-retryable error, or until an overall deadline elapses"; retryable
means `isDependencyNotFoundError`, a non-retryable error "returns
immediately wrapped with context identifying the resource kind/id", and
the ~60 s deadline is modelled by `fuel`, the number of probe attempts
still allowed.  `probe` maps the index of the call to its result
(`none` = success); `calls` counts the calls already made.  Returns the
total number of probe calls and the final outcome. -/
def waitForDependencyRun (probe : Nat → Option String) (kind rid : String) :
    Nat → Nat → Nat × Option String
  | 0, calls =>
    (calls, some ("timed out after 60s waiting for " ++ kind
      ++ " \"" ++ rid ++ "\""))
  | fuel + 1, calls =>
    match probe calls with
    | none => (calls + 1, none)
    | some e =>
      if isDependencyNotFoundError (some e) then
        waitForDependencyRun probe kind rid fuel (calls + 1)
      else
        (calls + 1, some ("error checking " ++ kind ++ " \"" ++ rid
          ++ "\": " ++ e))

/-! ## Helper lemmas for the dependency-wait theorems -/

/-- A retryable run segment: if the first `k` probe calls (starting at
`base`) fail retryably and call `base + k` fails non-retryably, the run
stops right after call `base + k` with the wrapped error. -/
theorem waitRun_fail_fast (probe : Nat → Option String) (kind rid e : String) :
    ∀ (k fuel base : Nat),
      (∀ i, i < k → isDependencyNotFoundError (probe (base + i)) = true) →
      probe (base + k) = some e →
      isDependencyNotFoundError (some e) = false →
      k < fuel →
      waitForDependencyRun probe kind rid fuel base
        = (base + k + 1,
           some ("error checking " ++ kind ++ " \"" ++ rid ++ "\": " ++ e))
  | 0, fuel, base, _, hk, hnf, hfuel => by
    obtain ⟨f, rfl⟩ : ∃ f, fuel = f + 1 := ⟨fuel - 1, by omega⟩
    simp only [Nat.add_zero] at hk
    simp [waitForDependencyRun, hk, hnf]
  | k + 1, fuel, base, hret, hk, hnf, hfuel => by
    obtain ⟨f, rfl⟩ : ∃ f, fuel = f + 1 := ⟨fuel - 1, by omega⟩
    have h0 : isDependencyNotFoundError (probe base) = true := by
      simpa using hret 0 (Nat.succ_pos k)
    obtain ⟨e0, he0⟩ : ∃ e0, probe base = some e0 := by
      cases hp : probe base with
      | none => rw [hp] at h0; simp [isDependencyNotFoundError] at h0
      | some e0 => exact ⟨e0, rfl⟩
    rw [he0] at h0
    have ih := waitRun_fail_fast probe kind rid e k f (base + 1)
      (fun i hi => by
        have := hret (i + 1) (Nat.succ_lt_succ hi)
        rwa [show base + (i + 1) = base + 1 + i by omega] at this)
      (by rwa [show base + 1 + k = base + (k + 1) by omega])
      hnf (by omega)
    simp only [waitForDependencyRun, he0, h0, if_true]
    rw [ih]
    congr 1
    omega

/-! ## Claim theorems -/

/-- Claim C5: The not-found predicate `isDependencyNotFoundError` returns
true exactly for errors whose message contains the substring `404`, or
contains `not found` under (ASCII) case-insensitive comparison; every
other error string gives false, and nil input gives false. -/
theorem claim_C5_not_found_predicate :
    isDependencyNotFoundError none = false ∧
    ∀ msg : String,
      (isDependencyNotFoundError (some msg) = true ↔
        occursIn ("404").data msg.data ∨
        occursIn ("not found").data (lowerStr msg).data) := by
  refine ⟨rfl, fun msg => ?_⟩
  simp only [isDependencyNotFoundError, Bool.or_eq_true]
  rw [strContains_iff, strContains_iff]

/-- Witness for claim C5: The predicate evaluated at a `404` error, a
mixed-case `Not Found` error, an unrelated error, and nil. -/
theorem claim_C5_not_found_predicate_witness :
    isDependencyNotFoundError (some "API error (404): resource missing")
        = true ∧
    isDependencyNotFoundError (some "the resource was Not Found") = true ∧
    isDependencyNotFoundError (some "API error (500): internal") = false ∧
    isDependencyNotFoundError none = false := by
  refine ⟨?_, ?_, ?_, claim_C5_not_found_predicate.1⟩
  · exact (claim_C5_not_found_predicate.2 _).mpr
      (Or.inl ⟨"API error (".data, "): resource missing".data, by decide⟩)
  · exact (claim_C5_not_found_predicate.2 _).mpr
      (Or.inr ⟨"the resource was ".data, [], by decide⟩)
  · decide

/-- Claim C6: `waitForDependency` invokes the probe exactly until its first
success: an immediately-successful probe gives exactly one call and a nil
result, and a probe failing twice with a not-found error before
succeeding gives exactly three calls and a nil result. -/
theorem claim_C6_wait_until_first_success
    (probe : Nat → Option String) (kind rid : String) (fuel : Nat) :
    (1 ≤ fuel → probe 0 = none →
      waitForDependencyRun probe kind rid fuel 0 = (1, none)) ∧
    (3 ≤ fuel →
      isDependencyNotFoundError (probe 0) = true →
      isDependencyNotFoundError (probe 1) = true →
      probe 2 = none →
      waitForDependencyRun probe kind rid fuel 0 = (3, none)) := by
  constructor
  · intro hfuel h0
    obtain ⟨f, rfl⟩ : ∃ f, fuel = f + 1 := ⟨fuel - 1, by omega⟩
    simp [waitForDependencyRun, h0]
  · intro hfuel h0 h1 h2
    obtain ⟨f, rfl⟩ : ∃ f, fuel = f + 3 := ⟨fuel - 3, by omega⟩
    obtain ⟨e0, he0⟩ : ∃ e0, probe 0 = some e0 := by
      cases hp : probe 0 with
      | none => rw [hp] at h0; simp [isDependencyNotFoundError] at h0
      | some e0 => exact ⟨e0, rfl⟩
    obtain ⟨e1, he1⟩ : ∃ e1, probe 1 = some e1 := by
      cases hp : probe 1 with
      | none => rw [hp] at h1; simp [isDependencyNotFoundError] at h1
      | some e1 => exact ⟨e1, rfl⟩
    rw [he0] at h0; rw [he1] at h1
    show waitForDependencyRun probe kind rid (f + 1 + 1 + 1) 0 = (3, none)
    simp [waitForDependencyRun, he0, h0, he1, h1, h2]

/-- Witness for claim C6: A probe that fails with not-found twice and then
succeeds, run with the 60-second fuel budget. -/
theorem claim_C6_wait_until_first_success_witness :
    waitForDependencyRun
      (fun n => if n < 2 then some "API error (404): not found" else none)
      "test_resource" "test-id" 30 0 = (3, none) :=
  (claim_C6_wait_until_first_success
    (fun n => if n < 2 then some "API error (404): not found" else none)
    "test_resource" "test-id" 30).2
    (by omega) (by decide) (by decide) (by decide)

/-- Claim C7: `waitForDependency` fails fast on non-retryable errors: if
the first `k` probe calls fail with not-found errors and call `k` fails
with any other error, the run returns right after that call — exactly
`k + 1` probe calls — and the returned error message contains the
context `error checking <kind> "<id>"`. -/
theorem claim_C7_fail_fast_on_non_retryable
    (probe : Nat → Option String) (kind rid e : String) (k fuel : Nat)
    (hret : ∀ i, i < k → isDependencyNotFoundError (probe i) = true)
    (hk : probe k = some e)
    (hnf : isDependencyNotFoundError (some e) = false)
    (hfuel : k < fuel) :
    waitForDependencyRun probe kind rid fuel 0
      = (k + 1,
         some ("error checking " ++ kind ++ " \"" ++ rid ++ "\": " ++ e)) ∧
    occursIn ("error checking " ++ kind ++ " \"" ++ rid ++ "\"").data
      ("error checking " ++ kind ++ " \"" ++ rid ++ "\": " ++ e).data := by
  constructor
  · have := waitRun_fail_fast probe kind rid e k fuel 0
      (fun i hi => by simpa using hret i hi) (by simpa using hk) hnf hfuel
    simpa using this
  · exact ⟨[], (": " ++ e).data, by simp [String.data_append]⟩

/-- Witness for claim C7: One retryable 404 followed by a 500: two probe calls
and a contextualised error. -/
theorem claim_C7_fail_fast_on_non_retryable_witness :
    waitForDependencyRun
      (fun n => if n = 0 then some "API error (404): not found"
                else some "API error (500): server broke")
      "test_resource" "test-id" 30 0
      = (2, some ("error checking test_resource \"test-id\": "
          ++ "API error (500): server broke")) :=
  ((claim_C7_fail_fast_on_non_retryable
    (fun n => if n = 0 then some "API error (404): not found"
              else some "API error (500): server broke")
    "test_resource" "test-id" "API error (500): server broke" 1 30
    (fun i hi => by
      have : i = 0 := by omega
      subst this
      decide)
    (by decide) (by decide) (by omega)).1).trans (by decide)

/-- A concrete decoder whose envelope always reports success: used to
exhibit a 3xx status that `doRequest` does not treat as an error. -/
def decodeAlwaysOk : String → Except String APIResponse :=
  fun _ => .ok ⟨true, "", "", "payload"⟩

/-- Counterexample for claim C8: The claim says every non-2xx HTTP status is a
hard error, but `doRequest` only errors on `StatusCode >= 400`: a 302
response with a well-formed success envelope is unwrapped normally. -/
theorem claim_C8_counterexample :
    (302 < 200 ∨ 300 ≤ 302) ∧
    doRequestHandle decodeAlwaysOk 302 "raw body" = .ok "payload" :=
  ⟨Or.inr (by omega), rfl⟩

/-- Claim C8, amended: `doRequest` returns a hard error, carrying the
status code and the raw response body, exactly on HTTP status `>= 400`;
on status `< 400` the body is unwrapped from the
`{success, message, error, data}` envelope, and an envelope with
`success = false` yields an error carrying the envelope's error
string. -/
theorem claim_C8_status_and_envelope
    (decode : String → Except String APIResponse)
    (status : Nat) (body : String) :
    (400 ≤ status →
      doRequestHandle decode status body
          = .error ("API error (" ++ Nat.repr status ++ "): " ++ body) ∧
      occursIn body.data
        ("API error (" ++ Nat.repr status ++ "): " ++ body).data) ∧
    (status < 400 →
      doRequestHandle decode status body = unwrapAPIResponse decode body) ∧
    (∀ env, decode body = .ok env → env.success = false →
      unwrapAPIResponse decode body
        = .error ("API request failed: " ++ env.error)) := by
  refine ⟨fun h4 => ⟨?_, ?_⟩, fun hlt => ?_, fun env hdec hfail => ?_⟩
  · simp [doRequestHandle, h4]
  · exact ⟨("API error (" ++ Nat.repr status ++ "): ").data, [],
      by simp [String.data_append]⟩
  · simp [doRequestHandle, Nat.not_le.mpr hlt]
  · simp [unwrapAPIResponse, hdec, hfail]

/-- Witness for claim C8: A 404 with a raw body, a 200 unwrap, and a
`success = false` envelope on a concrete decoder. -/
theorem claim_C8_status_and_envelope_witness :
    doRequestHandle decodeAlwaysOk 404 "missing"
        = .error "API error (404): missing" ∧
    doRequestHandle decodeAlwaysOk 200 "anything" = .ok "payload" := by
  constructor
  · exact ((claim_C8_status_and_envelope decodeAlwaysOk 404 "missing").1
      (by omega)).1.trans rfl
  · exact ((claim_C8_status_and_envelope decodeAlwaysOk 200 "anything").2.1
      (by omega)).trans rfl

/-- Claim C9: Splitting the stored composite id on `,` always yields at
least one element, so `Read`'s `Invalid State` branch and `Delete`'s
nothing-to-delete early return are unreachable; the empty id splits into
a single empty row id, which is fetched and — being not found — dropped
like any other row, removing the resource from state. -/
theorem claim_C9_split_never_empty :
    (∀ s : String, 1 ≤ (goSplit s).length) ∧
    goSplit "" = [""] ∧
    (∀ (get : String → Except String Assignment) (s : String),
      readAssignment get s ≠ .invalidState) ∧
    (∀ (del : String → Option String) (s : String),
      deleteAssignment del s ≠ .nothingToDelete) ∧
    readAssignment (fun _ => .error "API error (404): not found") ""
      = .removedFromState := by
  refine ⟨goSplit_length_pos, by decide, ?_, ?_, by decide⟩
  · intro get s
    have hpos := goSplit_length_pos s
    simp only [readAssignment]
    rw [if_neg (by omega)]
    split <;> simp
  · intro del s
    have hpos := goSplit_length_pos s
    simp only [deleteAssignment]
    rw [if_neg (by omega)]
    split <;> simp

/-- Witness for claim C9: The unreachable branches, evaluated at concrete
inputs via the theorem. -/
theorem claim_C9_split_never_empty_witness :
    1 ≤ (goSplit "").length ∧
    readAssignment (fun _ => .error "boom") "" ≠ .invalidState ∧
    deleteAssignment (fun _ => none) "" ≠ .nothingToDelete :=
  ⟨claim_C9_split_never_empty.1 "",
    claim_C9_split_never_empty.2.2.1 (fun _ => .error "boom") "",
    claim_C9_split_never_empty.2.2.2.1 (fun _ => none) ""⟩

/-- Claim C2: Assignment create partial-success policy: the recovered row
ids are exactly those of the first matching listed row per requested
account, the warned accounts are exactly those without a matching row;
zero recoverable rows fail the operation with nothing persisted, and
otherwise the persisted id is exactly the comma-join of the recovered
row ids. -/
theorem claim_C2_create_partial_success (rows : List Assignment)
    (ps pt pid : String) (accts : List String) :
    (accts.filterMap (fun acct =>
        (rows.find? (matchesCreate ps pt pid acct)).map Assignment.id) = []
      → createAssignment rows ps pt pid accts = .noAssignmentsFound) ∧
    (accts.filterMap (fun acct =>
        (rows.find? (matchesCreate ps pt pid acct)).map Assignment.id) ≠ []
      → createAssignment rows ps pt pid accts
          = .created
              (goJoin "," (accts.filterMap fun acct =>
                (rows.find? (matchesCreate ps pt pid acct)).map Assignment.id))
              (accts.filter fun acct =>
                (rows.find? (matchesCreate ps pt pid acct)).isNone)) := by
  constructor
  · intro h
    simp [createAssignment, recoverCreated_fst, h]
  · intro h
    simp only [createAssignment, recoverCreated_fst, recoverCreated_snd]
    rw [if_neg (by simpa [List.length_eq_zero] using h)]

/-- Witness for claim C2: One of two accounts recoverable: warn on the missing
one, persist the single recovered id. -/
theorem claim_C2_create_partial_success_witness :
    createAssignment
      [⟨"i1", "ps", "USER", "", "A", "alice", ""⟩]
      "ps" "USER" "alice" ["A", "B"]
      = .created "i1" ["B"] :=
  ((claim_C2_create_partial_success
      [⟨"i1", "ps", "USER", "", "A", "alice", ""⟩]
      "ps" "USER" "alice" ["A", "B"]).2 (by decide)).trans (by decide)

/-- Claim C3: Assignment delete is best-effort and not atomic: every row id
of the composite id is attempted regardless of earlier failures, a
per-row error containing `404` or `not found` contributes nothing, and
all other per-row failures are collected into one aggregated error
reported after all rows have been attempted. -/
theorem claim_C3_delete_best_effort (del : String → Option String)
    (stateID : String) :
    (deleteScan del (goSplit stateID)).1 = goSplit stateID ∧
    (deleteScan del (goSplit stateID)).2
      = (goSplit stateID).filterMap (fun rid =>
          match del rid with
          | none => none
          | some e =>
            if rowNotFound e then none
            else some ("assignment " ++ rid ++ ": " ++ e)) ∧
    deleteAssignment del stateID
      = (if (deleteScan del (goSplit stateID)).2.length = 0 then .ok
         else .errorAgg
           ("Failed to delete some permission set assignments: "
             ++ goJoin "; " (deleteScan del (goSplit stateID)).2)) := by
  refine ⟨deleteScan_fst del _, deleteScan_snd del _, ?_⟩
  have hpos := goSplit_length_pos stateID
  simp only [deleteAssignment]
  rw [if_neg (by omega)]

/-- A concrete per-row delete outcome: `i1` succeeds, `i2` is already
gone, `i3` fails hard. -/
def delW : String → Option String :=
  fun rid =>
    if rid = "i1" then none
    else if rid = "i2" then some "API error (404): gone"
    else some "API error (500): boom"

/-- Witness for claim C3: Three rows: one deletes, one is already gone (404),
one fails hard; all three are attempted and the one real failure is
aggregated. -/
theorem claim_C3_delete_best_effort_witness :
    (deleteScan delW (goSplit "i1,i2,i3")).1 = ["i1", "i2", "i3"] ∧
    deleteAssignment delW "i1,i2,i3"
      = .errorAgg ("Failed to delete some permission set assignments: "
          ++ "assignment i3: API error (500): boom") := by
  have h := claim_C3_delete_best_effort delW "i1,i2,i3"
  exact ⟨h.1.trans (by decide), h.2.2.trans (by decide)⟩

/-! ### Helper lemmas for the cascading pre-delete -/

/-- The pre-delete loop, restricted to the rows that already passed the
permission-set filter. -/
def cascadeProcess (del : String → Option String) :
    List Assignment → List ApiCall × List String × List String
  | [] => ([], [], [])
  | a :: rest =>
    let r := cascadeProcess del rest
    match del a.id with
    | none => (.deleteAssignmentCall a.id :: r.1, r.2.1, a.id :: r.2.2)
    | some e =>
      (.deleteAssignmentCall a.id :: r.1,
        ("assignment " ++ a.id ++ ": " ++ e) :: r.2.1, r.2.2)

theorem cascadeDeleteAssignments_eq_filter (del : String → Option String)
    (psID : String) :
    ∀ L : List Assignment,
      cascadeDeleteAssignments del psID L
        = cascadeProcess del (L.filter fun a => a.permissionSetID == psID)
  | [] => rfl
  | a :: rest => by
    simp only [cascadeDeleteAssignments, List.filter_cons]
    by_cases h : (a.permissionSetID == psID) = true
    · cases hd : del a.id <;>
        simp [h, hd, cascadeProcess,
          cascadeDeleteAssignments_eq_filter del psID rest]
    · simp [h, cascadeDeleteAssignments_eq_filter del psID rest]

theorem pollCheck_events (get : String → Except String Assignment) :
    ∀ ids : List String, ∃ js : List String,
      (pollCheck get ids).1 = js.map ApiCall.getAssignmentCall
  | [] => ⟨[], rfl⟩
  | rid :: rest => by
    cases hg : get rid with
    | ok v => exact ⟨[rid], by simp [pollCheck, hg]⟩
    | error err =>
      obtain ⟨js, hjs⟩ := pollCheck_events get rest
      by_cases hnf : rowNotFound err = true
      · exact ⟨rid :: js, by simp [pollCheck, hg, hnf, hjs]⟩
      · exact ⟨rid :: js, by simp [pollCheck, hg, hnf, hjs]⟩

theorem pollLoop_events (getAt : Nat → String → Except String Assignment)
    (ids : List String) :
    ∀ fuel round : Nat, ∃ js : List String,
      (pollLoop getAt ids fuel round).1 = js.map ApiCall.getAssignmentCall
  | 0, _ => ⟨[], rfl⟩
  | fuel + 1, round => by
    obtain ⟨js1, h1⟩ := pollCheck_events (getAt round) ids
    obtain ⟨js2, h2⟩ := pollLoop_events getAt ids fuel (round + 1)
    by_cases hs : (pollCheck (getAt round) ids).2.1 = true
    · exact ⟨js1 ++ js2, by simp [pollLoop, hs, h1, h2]⟩
    · exact ⟨js1, by simp [pollLoop, hs, h1]⟩

/-- An id that stays fetchable forever keeps the poll loop alive until
its fuel (time budget) is exhausted. -/
theorem pollLoop_timeout (getAt : Nat → String → Except String Assignment)
    (x : String) (rest : List String)
    (halive : ∀ r : Nat, ∃ v, getAt r x = .ok v) :
    ∀ fuel round : Nat, (pollLoop getAt (x :: rest) fuel round).2.1 = true
  | 0, _ => rfl
  | fuel + 1, round => by
    obtain ⟨v, hv⟩ := halive round
    have hcheck : (pollCheck (getAt round) (x :: rest)).2.1 = true := by
      simp [pollCheck, hv]
    simp [pollLoop, hcheck,
      pollLoop_timeout getAt x rest halive fuel (round + 1)]

/-- Claim C4: Cascading pre-delete: with exactly two live assignments
referencing the permission set, its deletion issues exactly two
assignment-delete calls, then only fetch probes, then the single
permission-set delete call; individual assignment-delete failures only
produce the collected warning; and when a deleted assignment stays
fetchable the poll budget is exhausted, the timeout warning fires, and
the parent delete is still attempted. -/
theorem claim_C4_cascading_predelete
    (L : List Assignment) (a1 a2 : Assignment) (psID : String)
    (del : String → Option String)
    (getAt : Nat → String → Except String Assignment)
    (delParent : Option String) (fuel : Nat)
    (hfilter : L.filter (fun a => a.permissionSetID == psID) = [a1, a2]) :
    (∃ pollPart : List String,
      (permissionSetCascadeDelete (.ok L) del getAt delParent psID fuel).events
        = .listAssignments :: .deleteAssignmentCall a1.id
            :: .deleteAssignmentCall a2.id
            :: (pollPart.map ApiCall.getAssignmentCall
                ++ [.deletePermissionSetCall psID])) ∧
    (permissionSetCascadeDelete
        (.ok L) del getAt delParent psID fuel).fatalError = delParent ∧
    ((∃ e, del a1.id = some e) →
      "Failed to Delete Some Assignments"
        ∈ (permissionSetCascadeDelete
            (.ok L) del getAt delParent psID fuel).warnings) ∧
    (del a1.id = none → del a2.id = none →
      (∀ r : Nat, ∃ v, getAt r a1.id = .ok v) →
      (permissionSetCascadeDelete
          (.ok L) del getAt delParent psID fuel).timeoutWarning = true) := by
  have hd : cascadeDeleteAssignments del psID L = cascadeProcess del [a1, a2] := by
    rw [cascadeDeleteAssignments_eq_filter, hfilter]
  have hd1 : (cascadeProcess del [a1, a2]).1
      = [.deleteAssignmentCall a1.id, .deleteAssignmentCall a2.id] := by
    cases hdel1 : del a1.id <;> cases hdel2 : del a2.id <;>
      simp [cascadeProcess, hdel1, hdel2]
  refine ⟨?_, ?_, ?_, ?_⟩
  · by_cases hlen : (cascadeProcess del [a1, a2]).2.2.length > 0
    · obtain ⟨js, hjs⟩ := pollLoop_events getAt
        (cascadeProcess del [a1, a2]).2.2 fuel 0
      refine ⟨js, ?_⟩
      simp only [permissionSetCascadeDelete, hd]
      rw [if_pos hlen]
      simp [hd1, hjs]
    · refine ⟨[], ?_⟩
      simp only [permissionSetCascadeDelete, hd]
      rw [if_neg hlen]
      simp [hd1]
  · simp only [permissionSetCascadeDelete, hd]
    split <;> rfl
  · rintro ⟨e, he⟩
    have herr : (cascadeProcess del [a1, a2]).2.1.length > 0 := by
      cases hdel2 : del a2.id <;> simp [cascadeProcess, he, hdel2]
    simp only [permissionSetCascadeDelete, hd]
    by_cases hlen : (cascadeProcess del [a1, a2]).2.2.length > 0
    · rw [if_pos hlen]
      simp [herr]
    · rw [if_neg hlen]
      simp [herr]
  · intro h1 h2 halive
    have hdd : (cascadeProcess del [a1, a2]).2.2 = [a1.id, a2.id] := by
      simp [cascadeProcess, h1, h2]
    simp only [permissionSetCascadeDelete, hd, hdd]
    rw [if_pos (by simp)]
    exact pollLoop_timeout getAt a1.id [a2.id] halive fuel 0

/-- The backend listing of the C4 witness scenario: two rows reference
permission set `ps1`, one references another permission set. -/
def cascadeListW : List Assignment :=
  [⟨"x1", "ps1", "USER", "", "A", "alice", ""⟩,
   ⟨"y", "other", "USER", "", "A", "bob", ""⟩,
   ⟨"x2", "ps1", "GROUP", "", "B", "", "devs"⟩]

/-- Witness for claim C4: Both deletes succeed, but the first assignment never
disappears: the poll budget is exhausted, the timeout warning fires, and
the parent delete still runs (no fatal error). -/
theorem claim_C4_cascading_predelete_witness :
    (permissionSetCascadeDelete (.ok cascadeListW) (fun _ => none)
        (fun _ _ => .ok ⟨"x1", "ps1", "USER", "", "A", "alice", ""⟩)
        none "ps1" 2).timeoutWarning = true ∧
    (permissionSetCascadeDelete (.ok cascadeListW) (fun _ => none)
        (fun _ _ => .ok ⟨"x1", "ps1", "USER", "", "A", "alice", ""⟩)
        none "ps1" 2).fatalError = none := by
  have h := claim_C4_cascading_predelete cascadeListW
    ⟨"x1", "ps1", "USER", "", "A", "alice", ""⟩
    ⟨"x2", "ps1", "GROUP", "", "B", "", "devs"⟩
    "ps1" (fun _ => none)
    (fun _ _ => .ok ⟨"x1", "ps1", "USER", "", "A", "alice", ""⟩)
    none 2 (by decide)
  exact ⟨h.2.2.2 rfl rfl (fun r => ⟨_, rfl⟩), h.2.1⟩

/-- A row found by `Create`'s recovery filter carries the searched-for
permission set, principal type, account and principal identity. -/
theorem matchesCreate_fields {ps pt pid acct : String} {a : Assignment}
    (h : matchesCreate ps pt pid acct a = true) :
    a.permissionSetID = ps ∧ a.principalType = pt ∧ a.accountID = acct ∧
    (if a.principalType == "USER" then a.username else a.groupName) = pid := by
  simp only [matchesCreate, Bool.and_eq_true, beq_iff_eq] at h
  obtain ⟨⟨⟨h1, h2⟩, h3⟩, h4⟩ := h
  refine ⟨h1, h2, h3, ?_⟩
  rw [h2]
  by_cases hU : pt = "USER"
  · subst hU
    rw [if_pos (show ("USER" == "USER") = true from rfl)]
    rw [if_pos (show "USER" = "USER" from rfl)] at h4
    exact beq_iff_eq.mp h4
  · by_cases hG : pt = "GROUP"
    · subst hG
      rw [if_neg (show ¬ (("GROUP" == "USER") = true) by decide)]
      rw [if_neg (show ¬ ("GROUP" = "USER") by decide),
        if_pos (show "GROUP" = "GROUP" from rfl)] at h4
      exact beq_iff_eq.mp h4
    · exfalso
      rw [if_neg hU, if_neg hG] at h4
      exact absurd h4 (by simp)

/-- Claim C1: Composite-id round trip for permission set assignments:
creating across accounts `{A, B, C}` persists the comma-join of the three
recovered row ids; reading it back while all three rows exist recovers
exactly `[A, B, C]` with no drift warning; reading after row `B` was
removed out-of-band drops it silently (no API-error warning) but flags
drift and recovers `[A, C]`; reading after all rows are gone removes the
resource from state. -/
theorem claim_C1_composite_roundtrip
    (rows : List Assignment) (ps pt pid A B C : String)
    (ra rb rc : Assignment)
    (ha : rows.find? (matchesCreate ps pt pid A) = some ra)
    (hb : rows.find? (matchesCreate ps pt pid B) = some rb)
    (hc : rows.find? (matchesCreate ps pt pid C) = some rc)
    (hca : ',' ∉ ra.id.data) (hcb : ',' ∉ rb.id.data)
    (hcc : ',' ∉ rc.id.data) :
    createAssignment rows ps pt pid [A, B, C]
        = .created (goJoin "," [ra.id, rb.id, rc.id]) [] ∧
    (∀ get : String → Except String Assignment,
      get ra.id = .ok ra → get rb.id = .ok rb → get rc.id = .ok rc →
      readAssignment get (goJoin "," [ra.id, rb.id, rc.id])
        = .ok false [] ps pt pid [A, B, C]) ∧
    (∀ (get : String → Except String Assignment) (eb : String),
      get ra.id = .ok ra → get rb.id = .error eb → rowNotFound eb = true →
      get rc.id = .ok rc →
      readAssignment get (goJoin "," [ra.id, rb.id, rc.id])
        = .ok true [] ps pt pid [A, C]) ∧
    (∀ (get : String → Except String Assignment) (ea eb ec : String),
      get ra.id = .error ea → rowNotFound ea = true →
      get rb.id = .error eb → rowNotFound eb = true →
      get rc.id = .error ec → rowNotFound ec = true →
      readAssignment get (goJoin "," [ra.id, rb.id, rc.id])
        = .removedFromState) := by
  obtain ⟨haP, haT, haA, haPid⟩ := matchesCreate_fields (List.find?_some ha)
  obtain ⟨-, -, hbA, -⟩ := matchesCreate_fields (List.find?_some hb)
  obtain ⟨-, -, hcA, -⟩ := matchesCreate_fields (List.find?_some hc)
  have hPid : (if pt = "USER" then ra.username else ra.groupName) = pid := by
    rw [← haT]
    simpa using haPid
  have hsplit : goSplit (goJoin "," [ra.id, rb.id, rc.id])
      = [ra.id, rb.id, rc.id] := by
    refine goSplit_goJoin _ (by simp) ?_
    intro s hs
    simp only [List.mem_cons, List.not_mem_nil, or_false] at hs
    rcases hs with rfl | rfl | rfl
    · exact hca
    · exact hcb
    · exact hcc
  refine ⟨?_, ?_, ?_, ?_⟩
  · have hrec : recoverCreated rows ps pt pid [A, B, C]
        = ([ra.id, rb.id, rc.id], []) := by
      simp [recoverCreated, ha, hb, hc]
    simp [createAssignment, hrec]
  · intro get hga hgb hgc
    have hscan : readScan get [ra.id, rb.id, rc.id] = ([ra, rb, rc], []) := by
      simp [readScan, hga, hgb, hgc]
    simp [readAssignment, hsplit, hscan, haP, haT, haA, hbA, hcA, hPid]
  · intro get eb hga hgb hnb hgc
    have hscan : readScan get [ra.id, rb.id, rc.id] = ([ra, rc], []) := by
      simp [readScan, hga, hgb, hgc, hnb]
    simp [readAssignment, hsplit, hscan, haP, haT, haA, hcA, hPid]
  · intro get ea eb ec hga hna hgb hnb hgc hnc
    have hscan : readScan get [ra.id, rb.id, rc.id] = ([], []) := by
      simp [readScan, hga, hgb, hgc, hna, hnb, hnc]
    simp [readAssignment, hsplit, hscan]

/-- The three backend rows of the C1 witness scenario. -/
def rowsW : List Assignment :=
  [⟨"i1", "ps", "USER", "", "A", "alice", ""⟩,
   ⟨"i2", "ps", "USER", "", "B", "alice", ""⟩,
   ⟨"i3", "ps", "USER", "", "C", "alice", ""⟩]

/-- A backend where all three rows of `rowsW` are fetchable. -/
def getAllW : String → Except String Assignment := fun rid =>
  if rid = "i1" then .ok ⟨"i1", "ps", "USER", "", "A", "alice", ""⟩
  else if rid = "i2" then .ok ⟨"i2", "ps", "USER", "", "B", "alice", ""⟩
  else if rid = "i3" then .ok ⟨"i3", "ps", "USER", "", "C", "alice", ""⟩
  else .error "API error (404): not found"

/-- A backend where row `i2` was removed out-of-band. -/
def getDriftW : String → Except String Assignment := fun rid =>
  if rid = "i2" then .error "API error (404): not found" else getAllW rid

/-- A backend where every row is gone. -/
def getGoneW : String → Except String Assignment :=
  fun _ => .error "API error (404): not found"

/-- Witness for claim C1: The three round-trip scenarios at concrete inputs. -/
theorem claim_C1_composite_roundtrip_witness :
    createAssignment rowsW "ps" "USER" "alice" ["A", "B", "C"]
        = .created "i1,i2,i3" [] ∧
    readAssignment getAllW "i1,i2,i3"
        = .ok false [] "ps" "USER" "alice" ["A", "B", "C"] ∧
    readAssignment getDriftW "i1,i2,i3"
        = .ok true [] "ps" "USER" "alice" ["A", "C"] ∧
    readAssignment getGoneW "i1,i2,i3" = .removedFromState := by
  have h := claim_C1_composite_roundtrip rowsW "ps" "USER" "alice" "A" "B" "C"
    ⟨"i1", "ps", "USER", "", "A", "alice", ""⟩
    ⟨"i2", "ps", "USER", "", "B", "alice", ""⟩
    ⟨"i3", "ps", "USER", "", "C", "alice", ""⟩
    (by decide) (by decide) (by decide)
    (by decide) (by decide) (by decide)
  have hjoin : goJoin "," ["i1", "i2", "i3"] = "i1,i2,i3" := by decide
  refine ⟨?_, ?_, ?_, ?_⟩
  · exact h.1.trans (by rw [hjoin])
  · have h2 := h.2.1 getAllW rfl rfl rfl
    rwa [hjoin] at h2
  · have h3 := h.2.2.1 getDriftW "API error (404): not found"
      rfl rfl (by decide) rfl
    rwa [hjoin] at h3
  · have h4 := h.2.2.2 getGoneW "API error (404): not found"
      "API error (404): not found" "API error (404): not found"
      rfl (by decide) rfl (by decide) rfl (by decide)
    rwa [hjoin] at h4

/-- Claim C10: Non-clobber invariant of the AWS account resource: in
`Create`, `Read` and `Update`, an empty `account_name` or `region` in
the API response leaves the previously planned/stated value unchanged;
and when the response and the configuration both leave `role_arn` empty,
it is set to the computed default
`arn:aws:iam::<account_id>:role/CloudKeeper-SSO-Role`. -/
theorem claim_C10_aws_account_non_clobber
    (resp : AWSAccount) (data : AWSAccountState) :
    (resp.accountName = "" →
      (applyCreateAWS resp data).accountName = data.accountName ∧
      (applyReadAWS resp data).accountName = data.accountName ∧
      (applyUpdateAWS resp data).accountName = data.accountName) ∧
    (resp.region = "" →
      (applyCreateAWS resp data).region = data.region ∧
      (applyReadAWS resp data).region = data.region ∧
      (applyUpdateAWS resp data).region = data.region) ∧
    (resp.roleArn = "" →
      (data.roleArn.isNull || data.roleArn.valueString == "") = true →
      (applyReadAWS resp data).roleArn
          = .val (defaultRoleArn data.accountID.valueString) ∧
      (applyUpdateAWS resp data).roleArn
          = .val (defaultRoleArn data.accountID.valueString) ∧
      (applyCreateAWS resp data).roleArn
          = .val (defaultRoleArn
              (if resp.accountID = "" then data.accountID.valueString
               else resp.accountID))) := by
  refine ⟨fun hname => ⟨?_, ?_, ?_⟩, fun hreg => ⟨?_, ?_, ?_⟩,
    fun harn hcur => ⟨?_, ?_, ?_⟩⟩
  · simp only [applyCreateAWS, hname]
    split_ifs <;> first | rfl | simp_all
  · simp only [applyReadAWS, hname]
    split_ifs <;> first | rfl | simp_all
  · simp only [applyUpdateAWS, hname]
    split_ifs <;> first | rfl | simp_all
  · simp only [applyCreateAWS, hreg]
    split_ifs <;> first | rfl | simp_all
  · simp only [applyReadAWS, hreg]
    split_ifs <;> first | rfl | simp_all
  · simp only [applyUpdateAWS, hreg]
    split_ifs <;> first | rfl | simp_all
  · simp only [applyReadAWS, applyRoleArn, harn]
    split_ifs <;> first | rfl | simp_all
  · simp only [applyUpdateAWS, applyRoleArn, harn]
    split_ifs <;> first | rfl | simp_all
  · simp only [applyCreateAWS, applyRoleArn, harn]
    split_ifs <;> first | rfl | simp_all

/-- Witness for claim C10: A response with empty `account_name`, `region` and
`role_arn` against a state with a null `role_arn`. -/
theorem claim_C10_aws_account_non_clobber_witness :
    (applyReadAWS
        ⟨"srv-id", "cust", "", "", "", "", []⟩
        ⟨.val "srv-id", .val "123456789012", .val "prod", .val "us-east-1",
          .null, none⟩).accountName = .val "prod" ∧
    (applyReadAWS
        ⟨"srv-id", "cust", "", "", "", "", []⟩
        ⟨.val "srv-id", .val "123456789012", .val "prod", .val "us-east-1",
          .null, none⟩).roleArn
      = .val "arn:aws:iam::123456789012:role/CloudKeeper-SSO-Role" := by
  have h := claim_C10_aws_account_non_clobber
    ⟨"srv-id", "cust", "", "", "", "", []⟩
    ⟨.val "srv-id", .val "123456789012", .val "prod", .val "us-east-1",
      .null, none⟩
  exact ⟨(h.1 rfl).2.1, ((h.2.2 rfl rfl).1).trans (by decide)⟩

end Prism
